import Mathlib

/-!
Verification development for the market-dashboard repository
(reconnecting streaming client, freshness cache, data orchestrator).

Each section shallowly embeds one piece of the TypeScript source:
pure functions become Lean functions, stateful classes become explicit
state-passing transition functions, timers become explicit pending-timer
values, and the event-loop's interleaving is modelled by traces of events.
Numeric string parsing (JS `parseFloat`) is modelled over `ℚ`, with `none`
standing for `NaN` (exponents and infinities, which never occur in the
payloads involved, are not modelled).
-/

set_option maxRecDepth 4096

/-! ## A model of JS `parseFloat` over ℚ

`parseFloat` skips leading spaces, reads an optional sign, an integer part,
an optional fractional part, and ignores any trailing garbage; it returns
`NaN` (modelled as `none`) when no digit was read. -/

def digitsVal (cs : List Char) : Nat :=
  cs.foldl (fun a c => a * 10 + (c.toNat - 48)) 0

/-- The digits read by `parseFloat`, as a scaled integer: the result
`(m, k)` denotes the value `m / 10^k`. `none` models `NaN`. -/
def parseFloatScaled (s : String) : Option (Int × Nat) :=
  let cs := s.data.dropWhile (· = ' ')
  let signAndRest : Int × List Char :=
    match cs with
    | '-' :: rest => (-1, rest)
    | '+' :: rest => (1, rest)
    | _ => (1, cs)
  let sign := signAndRest.1
  let cs := signAndRest.2
  let intDigits := cs.takeWhile Char.isDigit
  let rest := cs.dropWhile Char.isDigit
  let fracDigits : List Char :=
    match rest with
    | '.' :: r => r.takeWhile Char.isDigit
    | _ => []
  if intDigits.isEmpty && fracDigits.isEmpty then none
  else
    some (sign * (digitsVal intDigits * 10 ^ fracDigits.length + digitsVal fracDigits),
      fracDigits.length)

/-- JS `parseFloat` as a rational value (`none` models `NaN`). -/
def jsParseFloat (s : String) : Option ℚ :=
  (parseFloatScaled s).map (fun mk => (mk.1 : ℚ) / 10 ^ mk.2)

example : parseFloatScaled "0.00" = some (0, 2) := by decide
example : parseFloatScaled "150.25" = some (15025, 2) := by decide
example : parseFloatScaled "-3.5" = some (-35, 1) := by decide

/-! ## Wire-format records (lib/websocket.ts)

`WebSocketTickerData` and the kline payload `WebSocketKlineData.k`,
with the string fields kept as strings exactly as on the wire. -/

structure KlinePayload where
  t : Nat
  tClose : Nat
  s : String
  i : String
  f : Nat
  tradeL : Nat
  o : String
  c : String
  h : String
  l : String
  v : String
  n : Nat
  x : Bool
  q : String
  takerV : String
  takerQ : String
  deriving DecidableEq, Repr

structure WebSocketTickerData where
  e : String
  E : Nat
  s : String
  c : String
  o : String
  h : String
  l : String
  P : String
  p : String
  deriving DecidableEq, Repr

/-- A parsed inbound message as the `onmessage` handler sees it:
the event type `e`, event time `E`, symbol `s`, and the kline payload
when present (`none` models a missing/falsy `data.k`). -/
structure WsIncoming where
  e : String
  E : Nat
  s : String
  k : Option KlinePayload
  deriving DecidableEq, Repr

/-- What the `onmessage` handler of `BinanceWebSocket.connect` emits to the
registered listeners. -/
inductive Emitted where
  | kline (d : WsIncoming)
  | ticker (d : WebSocketTickerData)
  deriving DecidableEq, Repr

/-- The kline branch of the `onmessage` handler (both revisions of
`BinanceWebSocket` carry the identical code): on a `kline` event it fires
the kline callback, and when the payload and its close price are truthy it
synthesizes a ticker whose change fields are the literal `"0.00"` and fires
the ticker callback once. A non-kline event emits nothing. -/
def onMessageEmits (d : WsIncoming) : List Emitted :=
  if d.e = "kline" then
    match d.k with
    | some k =>
      Emitted.kline d ::
        (if k.c ≠ "" then
          [Emitted.ticker
            { e := "24hrTicker", E := d.E, s := d.s, c := k.c, o := k.o,
              h := k.h, l := k.l, P := "0.00", p := "0.00" }]
        else [])
    | none => [Emitted.kline d]
  else []

/-! ## The hook's ticker handler (hooks/useMarketData.ts)

`stableHandleTickerUpdate` parses the message's price and change fields and
updates the held state; the change fields are only written when at least one
of them parses to a nonzero value (`parseFloat(data.p) !== 0 ||
parseFloat(data.P) !== 0`; `NaN !== 0` is true in JS, which the
`Option ℚ` comparison reproduces since `none ≠ some 0`). -/

structure PriceState where
  currentPrice : Option ℚ
  priceChange : Option ℚ
  priceChangePercent : Option ℚ
  deriving DecidableEq, Repr

def stableHandleTickerUpdate (st : PriceState) (d : WebSocketTickerData) :
    PriceState :=
  let price := jsParseFloat d.c
  let st := { st with currentPrice := price }
  if jsParseFloat d.p ≠ some 0 ∨ jsParseFloat d.P ≠ some 0 then
    { st with priceChange := jsParseFloat d.p
              priceChangePercent := jsParseFloat d.P }
  else st

/-! ## Freshness cache (app/api/ai/analyze/route.ts)

`getCachedData` is embedded per key: the `Map` lookup for the requested key
becomes an `Option CacheEntry` argument (keys are independent; `cleanupCache`
applies the same age test to every entry, so its effect on the requested key
is the per-entry filter below). The probabilistic `Math.random() < 0.1`
draw that decides whether `cleanupCache()` runs becomes the explicit
`doCleanup` argument, and the awaited `fetchFn` becomes its outcome
`fetchResult : Except E T`. The result tuple carries the returned value or
propagated error, the entry stored for the key afterwards, and whether
`fetchFn` was invoked. -/

structure CacheEntry (T : Type) where
  data : T
  timestamp : Nat
  ttl : Nat
  deriving DecidableEq, Repr

/-- The removal test of `cleanupCache`: `now - entry.timestamp > entry.ttl`. -/
def cleanupRemoves {T : Type} (e : CacheEntry T) (now : Nat) : Bool :=
  e.ttl < now - e.timestamp

/-- `cleanupCache`, restricted to one key's entry. -/
def cleanupCache {T : Type} (c : Option (CacheEntry T)) (now : Nat) :
    Option (CacheEntry T) :=
  match c with
  | some e => if cleanupRemoves e now then none else some e
  | none => none

/-- The freshness test of `getCachedData`: `Date.now() - cached.timestamp <
cached.ttl`. -/
def entryFresh {T : Type} (e : CacheEntry T) (now : Nat) : Bool :=
  now - e.timestamp < e.ttl

/-- `getCachedData(key, fetchFn, ttl)` for one key. Returns
`(outcome, entry stored for the key afterwards, whether fetchFn ran)`. -/
def getCachedData {T E : Type} (doCleanup : Bool) (entry : Option (CacheEntry T))
    (now : Nat) (fetchResult : Except E T) (ttl : Nat) :
    Except E T × Option (CacheEntry T) × Bool :=
  let cached := if doCleanup then cleanupCache entry now else entry
  match cached with
  | some e =>
    if entryFresh e now then (Except.ok e.data, some e, false)
    else
      match fetchResult with
      | Except.ok v => (Except.ok v, some ⟨v, now, ttl⟩, true)
      | Except.error _ => (Except.ok e.data, some e, true)
  | none =>
    match fetchResult with
    | Except.ok v => (Except.ok v, some ⟨v, now, ttl⟩, true)
    | Except.error err => (Except.error err, none, true)

/-! ## Streaming client, circuit-breaker revision (src/unnamed/part_005)

The `BinanceWebSocket` class becomes an explicit state record `St` plus
transition functions. The browser `WebSocket` object is abstracted to its
`readyState`; `Date.now()` and `Math.random()*jitterRange` become explicit
`now`/`jitter` arguments. Timers stored in fields (`connectionTimeout`,
`pingInterval`, `dataTimeoutCheck`) are cancellable and modelled as flags;
the anonymous `setTimeout` calls (the reconnect delay in `handleReconnect`,
the 5 s retry in `onerror`, the extended backoff in `connect`) are *not*
stored by the source and are modelled as `Pending` values that live outside
the instance state, since no method can clear them. -/

namespace BWSv2

inductive ReadyState where
  | connecting
  | opened
  | closing
  | closed
  deriving DecidableEq, Repr

/-- The mutable fields of the `BinanceWebSocket` class (part_005 revision). -/
structure St where
  ws : Option ReadyState
  reconnectAttempts : Nat
  connectionTimeoutSet : Bool
  isConnecting : Bool
  lastConnectionTime : Nat
  pingIntervalSet : Bool
  lastDataReceived : Nat
  dataTimeoutCheckSet : Bool
  errorCount : Nat
  lastErrorTime : Nat
  isCircuitBreakerActive : Bool
  connectionAttempts : Nat
  lastSuccessfulConnection : Nat
  currentUrlIndex : Nat
  deriving DecidableEq, Repr

def maxReconnectAttempts : Nat := 3

/-- `circuitBreakerDelay` is initialized to 15000 and never reassigned
anywhere in the class. -/
def circuitBreakerDelay : Nat := 15000

def wsUrlCount : Nat := 3

def initSt : St :=
  { ws := none, reconnectAttempts := 0, connectionTimeoutSet := false,
    isConnecting := false, lastConnectionTime := 0, pingIntervalSet := false,
    lastDataReceived := 0, dataTimeoutCheckSet := false, errorCount := 0,
    lastErrorTime := 0, isCircuitBreakerActive := false,
    connectionAttempts := 0, lastSuccessfulConnection := 0,
    currentUrlIndex := 0 }

/-- The three anonymous (never-stored, hence uncancellable) timers. -/
inductive TimerKind where
  | reconnectDelay
  | errorRetry
  | extendedBackoff
  deriving DecidableEq, Repr

structure Pending where
  kind : TimerKind
  fireAt : Nat
  deriving DecidableEq, Repr

/-- Externally observable effects: WebSocket construction and the
registered callbacks. -/
inductive Ev where
  | wsCreate (urlIndex : Nat)
  | connChange (connected : Bool)
  | errorCb (msg : String)
  deriving DecidableEq, Repr

/-- A transition's result: new state, newly scheduled anonymous timers,
emitted effects. -/
abbrev Out := St × List Pending × List Ev

def isConnected (s : St) : Bool := s.ws == some ReadyState.opened

/-- The body of `connect()` after its three early-return gates
(rate limit, `isConnecting`, circuit breaker) have been passed. -/
def connectAfterGates (s : St) (now : Nat) (createOk : Bool) : Out :=
  let s := { s with connectionAttempts := s.connectionAttempts + 1 }
  if 5 < s.connectionAttempts ∧ 60000 < now - s.lastSuccessfulConnection then
    (s, [⟨TimerKind.extendedBackoff,
          now + min (s.connectionAttempts * 5000) 60000⟩], [])
  else
    let s := { s with isConnecting := true, lastConnectionTime := now,
                      connectionTimeoutSet := false }
    if createOk then
      ({ s with ws := some ReadyState.connecting, connectionTimeoutSet := true },
        [], [Ev.wsCreate s.currentUrlIndex])
    else
      let s := { s with isConnecting := false, errorCount := s.errorCount + 1 }
      if 3 ≤ s.errorCount then
        ({ s with isCircuitBreakerActive := true, lastErrorTime := now },
          [], [Ev.errorCb "Failed to create WebSocket"])
      else
        (s, [], [Ev.errorCb "Failed to create WebSocket"])

/-- `connect()`. `createOk` is whether `new WebSocket(...)` succeeds
(the `catch` branch models a throwing constructor). -/
def connect (s : St) (now : Nat) (createOk : Bool) : Out :=
  if now - s.lastConnectionTime < 3000 then (s, [], [])
  else if s.isConnecting then (s, [], [])
  else if s.isCircuitBreakerActive then
    if now - s.lastErrorTime < circuitBreakerDelay then (s, [], [])
    else
      connectAfterGates
        { s with isCircuitBreakerActive := false, errorCount := 0 } now createOk
  else connectAfterGates s now createOk

/-- `handleReconnect()`. The scheduled `setTimeout` handle is discarded by
the source, so the timer is returned as an uncancellable `Pending`. -/
def handleReconnect (s : St) (now jitter : Nat) : Out :=
  if s.isCircuitBreakerActive then (s, [], [])
  else if s.reconnectAttempts < maxReconnectAttempts then
    let s := { s with reconnectAttempts := s.reconnectAttempts + 1 }
    let s :=
      if 1 < s.reconnectAttempts then
        { s with currentUrlIndex := (s.currentUrlIndex + 1) % wsUrlCount }
      else s
    let baseDelay := min (3000 * 2 ^ (s.reconnectAttempts - 1)) 60000
    (s, [⟨TimerKind.reconnectDelay, now + baseDelay + jitter⟩], [])
  else
    ({ s with isCircuitBreakerActive := true, lastErrorTime := now },
      [], [Ev.errorCb "Max reconnection attempts reached"])

/-- The `onopen` handler. -/
def onOpen (s : St) (now : Nat) : Out :=
  ({ s with isConnecting := false, reconnectAttempts := 0, errorCount := 0,
            connectionAttempts := 0, lastSuccessfulConnection := now,
            currentUrlIndex := 0, isCircuitBreakerActive := false,
            connectionTimeoutSet := false, pingIntervalSet := true,
            dataTimeoutCheckSet := true, lastDataReceived := now,
            ws := some ReadyState.opened },
    [], [Ev.connChange true])

/-- The `onclose` handler: clears the stored timers, notifies, and triggers
reconnect evaluation unless the close was manual (code 1000) or the circuit
breaker is active. -/
def onClose (s : St) (code now jitter : Nat) : Out :=
  let s := { s with isConnecting := false, connectionTimeoutSet := false,
                    pingIntervalSet := false, dataTimeoutCheckSet := false,
                    ws := some ReadyState.closed }
  if code ≠ 1000 ∧ ¬s.isCircuitBreakerActive then
    let r := handleReconnect s now jitter
    (r.1, r.2.1, Ev.connChange false :: r.2.2)
  else (s, [], [Ev.connChange false])

/-- The `onerror` handler: counts consecutive errors, trips the circuit
breaker at 3 (computing but only logging the grown
`min(circuitBreakerDelay * errorCount, 120000)` value), and otherwise
schedules an anonymous 5 s retry timer. -/
def onError (s : St) (now : Nat) : Out :=
  let s := { s with isConnecting := false, errorCount := s.errorCount + 1,
                    lastErrorTime := now }
  let evs := [Ev.errorCb "Connection error", Ev.connChange false]
  if 3 ≤ s.errorCount then
    ({ s with isCircuitBreakerActive := true }, [], evs)
  else
    (s, [⟨TimerKind.errorRetry, now + 5000⟩], evs)

/-- `disconnect()`: clears the three *stored* timer fields, resets the
instance counters and flags, and closes the socket. It has no reference to
the anonymous timers scheduled by `handleReconnect`, `onerror` or the
extended backoff, so it cannot clear them. -/
def disconnect (s : St) : St :=
  { s with connectionTimeoutSet := false, pingIntervalSet := false,
           dataTimeoutCheckSet := false, isConnecting := false,
           reconnectAttempts := 0, errorCount := 0,
           isCircuitBreakerActive := false, connectionAttempts := 0,
           ws := none }

/-- Firing one pending anonymous timer runs its callback's guard and body
exactly as written at the corresponding `setTimeout` in the source. -/
def fireTimer (s : St) (k : TimerKind) (now jitter : Nat) (createOk : Bool) :
    Out :=
  match k with
  | TimerKind.reconnectDelay =>
    if ¬isConnected s ∧ ¬s.isCircuitBreakerActive then connect s now createOk
    else (s, [], [])
  | TimerKind.errorRetry =>
    if ¬isConnected s ∧ s.reconnectAttempts < maxReconnectAttempts ∧
        ¬s.isCircuitBreakerActive then
      handleReconnect s now jitter
    else (s, [], [])
  | TimerKind.extendedBackoff =>
    if ¬isConnected s then connect s now createOk else (s, [], [])

end BWSv2

/-! ## Streaming client, first revision (src/lib/websocket.ts)

Only `handleReconnect` differs materially for the claims: five attempts, URL
advance after two, base delay `min(1000 * 2^(attempt-1), 30000)`, jitter up
to 1000, and no circuit breaker. -/

namespace BWSv1

def maxReconnectAttempts : Nat := 5

def wsUrlCount : Nat := 4

structure St where
  reconnectAttempts : Nat
  currentUrlIndex : Nat
  deriving DecidableEq, Repr

abbrev Out := St × List BWSv2.Pending × List BWSv2.Ev

/-- `handleReconnect()` of the first revision. -/
def handleReconnect (s : St) (now jitter : Nat) : Out :=
  if s.reconnectAttempts < maxReconnectAttempts then
    let s := { s with reconnectAttempts := s.reconnectAttempts + 1 }
    let s :=
      if 2 < s.reconnectAttempts then
        { s with currentUrlIndex := (s.currentUrlIndex + 1) % wsUrlCount }
      else s
    let baseDelay := min (1000 * 2 ^ (s.reconnectAttempts - 1)) 30000
    (s, [⟨BWSv2.TimerKind.reconnectDelay, now + baseDelay + jitter⟩], [])
  else
    (s, [], [BWSv2.Ev.errorCb "Max reconnection attempts reached"])

end BWSv1

/-! ## Event-loop traces for the circuit-breaker client

The host runtime is single-threaded: a trace is a list of atomic actions
(external socket events, user calls, and due timers), each running one
handler to completion. The pending anonymous timers accumulate in `Sys`,
and `disconnect` leaves them untouched because the source discards their
handles. -/

namespace BWSv2

inductive Act where
  | callConnect (now : Nat) (createOk : Bool)
  | evOpen (now : Nat)
  | evClose (code now jitter : Nat)
  | evError (now : Nat)
  | callDisconnect
  | fire (i now jitter : Nat) (createOk : Bool)
  deriving DecidableEq, Repr

structure Sys where
  st : St
  pending : List Pending
  events : List Ev
  deriving DecidableEq, Repr

def initSys : Sys := ⟨initSt, [], []⟩

def applyOut (sys : Sys) (o : Out) : Sys :=
  ⟨o.1, sys.pending ++ o.2.1, sys.events ++ o.2.2⟩

def stepSys (sys : Sys) (a : Act) : Sys :=
  match a with
  | Act.callConnect now createOk => applyOut sys (connect sys.st now createOk)
  | Act.evOpen now => applyOut sys (onOpen sys.st now)
  | Act.evClose code now jitter => applyOut sys (onClose sys.st code now jitter)
  | Act.evError now => applyOut sys (onError sys.st now)
  | Act.callDisconnect => ⟨disconnect sys.st, sys.pending, sys.events⟩
  | Act.fire i now jitter createOk =>
    match sys.pending[i]? with
    | some t =>
      applyOut ⟨sys.st, sys.pending.eraseIdx i, sys.events⟩
        (fireTimer sys.st t.kind now jitter createOk)
    | none => sys

def runSys (sys : Sys) (acts : List Act) : Sys := acts.foldl stepSys sys

end BWSv2

/-! ## Data orchestrator: refresh (hooks/useMarketData.ts, refreshData)

`refreshData` guards on the `isRefreshingRef` flag, then awaits
`fetchPriceData(true)` and `fetchData(undefined, true)` sequentially, and
clears the flag in `finally`. The body between awaits is modelled as
phases; resolution/rejection of each awaited fetch is an explicit trace
event, so reentrant calls during either await are representable. -/

namespace Orch

inductive RefreshPhase where
  | awaitingPriceFetch
  | awaitingDataFetch
  deriving DecidableEq, Repr

structure OSt where
  isRefreshing : Bool
  phase : Option RefreshPhase
  priceFetchInFlight : Bool
  dataFetchInFlight : Bool
  priceFetchCalls : Nat
  dataFetchCalls : Nat
  droppedRefreshes : Nat
  deriving DecidableEq, Repr

def initOSt : OSt :=
  { isRefreshing := false, phase := none, priceFetchInFlight := false,
    dataFetchInFlight := false, priceFetchCalls := 0, dataFetchCalls := 0,
    droppedRefreshes := 0 }

/-- A call to `refreshData`: dropped as a no-op when `isRefreshingRef` is
set, else sets the flag and starts the first awaited fetch. -/
def callRefresh (s : OSt) : OSt :=
  if s.isRefreshing then { s with droppedRefreshes := s.droppedRefreshes + 1 }
  else
    { s with isRefreshing := true, phase := some RefreshPhase.awaitingPriceFetch,
             priceFetchInFlight := true, priceFetchCalls := s.priceFetchCalls + 1 }

/-- `fetchPriceData` settles (`ok = true` resolution, otherwise rejection
caught by the surrounding try): on success the body proceeds to the second
awaited fetch; on rejection the catch and `finally` run, clearing the flag. -/
def priceFetchSettled (s : OSt) (ok : Bool) : OSt :=
  if s.phase = some RefreshPhase.awaitingPriceFetch ∧ s.priceFetchInFlight then
    if ok then
      { s with priceFetchInFlight := false,
               phase := some RefreshPhase.awaitingDataFetch,
               dataFetchInFlight := true, dataFetchCalls := s.dataFetchCalls + 1 }
    else
      { s with priceFetchInFlight := false, phase := none, isRefreshing := false }
  else s

/-- `fetchData` settles: either way the body finishes (the tail of the try
block is synchronous) and `finally` clears the flag. -/
def dataFetchSettled (s : OSt) (_ok : Bool) : OSt :=
  if s.phase = some RefreshPhase.awaitingDataFetch ∧ s.dataFetchInFlight then
    { s with dataFetchInFlight := false, phase := none, isRefreshing := false }
  else s

inductive OAct where
  | refreshCall
  | priceSettled (ok : Bool)
  | dataSettled (ok : Bool)
  deriving DecidableEq, Repr

def ostep (s : OSt) (a : OAct) : OSt :=
  match a with
  | OAct.refreshCall => callRefresh s
  | OAct.priceSettled ok => priceFetchSettled s ok
  | OAct.dataSettled ok => dataFetchSettled s ok

def orun (s : OSt) (acts : List OAct) : OSt := acts.foldl ostep s

/-- Number of underlying fetches currently in flight. -/
def fetchesInFlight (s : OSt) : Nat :=
  (if s.priceFetchInFlight then 1 else 0) + (if s.dataFetchInFlight then 1 else 0)

/-- Consistency of reachable refresh states: the in-flight fetches match the
phase, and a fetch only runs while a refresh is in progress. -/
def WF (s : OSt) : Prop :=
  (s.phase = none → s.isRefreshing = false ∧ s.priceFetchInFlight = false ∧
    s.dataFetchInFlight = false) ∧
  (s.phase = some RefreshPhase.awaitingPriceFetch →
    s.isRefreshing = true ∧ s.dataFetchInFlight = false) ∧
  (s.phase = some RefreshPhase.awaitingDataFetch →
    s.isRefreshing = true ∧ s.priceFetchInFlight = false)

end Orch

/-! ## Data orchestrator: subscription changes (hooks/useMarketData.ts)

`changeSymbol` / `changeTimeframe` each guard on value identity and on
their own in-flight ref, then synchronously run their `setState` calls up
to the first `await`; the forced `fetchPriceData` / `fetchData` calls only
happen after that `await`. The functions below are that synchronous
prelude, so any reset they perform precedes every fetch of the call. -/

structure Observation where
  time : Nat
  openP : ℚ
  high : ℚ
  low : ℚ
  close : ℚ
  volume : ℚ
  deriving DecidableEq, Repr

structure MarketAnalysis where
  trend : String
  deriving DecidableEq, Repr

structure IndicatorArrays where
  rsi : List ℚ
  deriving DecidableEq, Repr

structure TickerData where
  lastPrice : String
  priceChange : String
  priceChangePercent : String
  deriving DecidableEq, Repr

/-- The `useMarketData` state touched by the subscription-change calls. -/
structure HookState where
  candleData : List Observation
  analysis : Option MarketAnalysis
  indicatorArrays : Option IndicatorArrays
  isLoading : Bool
  error : Option String
  currentTimeframe : String
  currentSymbol : String
  isConnected : Bool
  connectionState : String
  currentPrice : Option ℚ
  priceChange : ℚ
  priceChangePercent : ℚ
  tickerData : Option TickerData
  isChangingTimeframe : Bool
  isChangingSymbol : Bool
  deriving DecidableEq, Repr

/-- The synchronous prelude of `changeSymbol` (everything before its first
`await`): guards, then state resets to placeholder values. -/
def changeSymbolStart (s : HookState) (newSymbol : String) : HookState :=
  if newSymbol = s.currentSymbol then s
  else if s.isChangingSymbol then s
  else
    { s with isChangingSymbol := true, currentSymbol := newSymbol,
             isLoading := true, error := none, isConnected := false,
             connectionState := "Connecting", candleData := [],
             analysis := none, indicatorArrays := none, currentPrice := none,
             priceChange := 0, priceChangePercent := 0, tickerData := none }

/-- The synchronous prelude of `changeTimeframe` (everything before its
`await fetchData(newTimeframe, true)`): guards, then only the timeframe,
loading and error fields change — no data reset. -/
def changeTimeframeStart (s : HookState) (newTimeframe : String) : HookState :=
  if newTimeframe = s.currentTimeframe then s
  else if s.isChangingTimeframe then s
  else
    { s with isChangingTimeframe := true, currentTimeframe := newTimeframe,
             isLoading := true, error := none }

/-! ## The chart-data dedup/sort stage

Modelled from the spec: the defensive sort-and-dedupe applied to Observation
sequences before chart use lives in `components/TradingChart.tsx`, which is
not among the provided sources. Per the spec, the stage sorts ascending by
`time` and collapses duplicate timestamps keeping the most recently
received values (last-write-wins). -/

/-- Modelled from the spec: keep, for each `time` value, only the last
occurrence in arrival order (the most recently received values). -/
def dedupKeepLast : List Observation → List Observation
  | [] => []
  | o :: rest =>
    if rest.any (fun x => x.time == o.time) then dedupKeepLast rest
    else o :: dedupKeepLast rest

/-- Modelled from the spec: the full dedup/sort stage — last-write-wins
dedup followed by an ascending sort on `time`. -/
def dedupSort (l : List Observation) : List Observation :=
  (dedupKeepLast l).mergeSort (fun a b => a.time ≤ b.time)

/-! ## AI provider selection (lib/ai-providers, AIProviderFactory)

Selection is a pure function of the `AI_PROVIDER` environment value and of
each provider's availability (`isAvailable()`, itself determined by
configured keys — Ollama is always available). `avail` abstracts that
availability map. -/

inductive AIProviderType where
  | claude
  | openai
  | groq
  | huggingface
  | ollama
  deriving DecidableEq, Repr

/-- The construction order of `getAllProviders()`. -/
def allProvidersOrder : List AIProviderType :=
  [AIProviderType.claude, AIProviderType.openai, AIProviderType.groq,
   AIProviderType.huggingface, AIProviderType.ollama]

/-- The priority order of `getDefaultProvider()`: free providers first. -/
def priorityOrder : List AIProviderType :=
  [AIProviderType.groq, AIProviderType.ollama, AIProviderType.huggingface,
   AIProviderType.claude, AIProviderType.openai]

/-- The `['claude','openai','groq','huggingface','ollama'].includes`
validation of the `AI_PROVIDER` value. -/
def parseProviderType (s : String) : Option AIProviderType :=
  if s = "claude" then some AIProviderType.claude
  else if s = "openai" then some AIProviderType.openai
  else if s = "groq" then some AIProviderType.groq
  else if s = "huggingface" then some AIProviderType.huggingface
  else if s = "ollama" then some AIProviderType.ollama
  else none

/-- `getDefaultProvider()`: first available in priority order, then first
available in construction order, then `'groq'`. -/
def getDefaultProvider (avail : AIProviderType → Bool) : AIProviderType :=
  match priorityOrder.find? avail with
  | some t => t
  | none =>
    match allProvidersOrder.find? avail with
    | some t => t
    | none => AIProviderType.groq

/-- `getPreferredProvider()`: honor a valid, available `AI_PROVIDER`
environment value, else fall back to `getDefaultProvider()`. -/
def getPreferredProvider (envAIProvider : Option String)
    (avail : AIProviderType → Bool) : AIProviderType :=
  match envAIProvider with
  | some s =>
    match parseProviderType s with
    | some t => if avail t then t else getDefaultProvider avail
    | none => getDefaultProvider avail
  | none => getDefaultProvider avail

/-! ## Concrete traces and sample values used by the theorems below -/

/-- Trace for the stray-reconnect defect: connect, abnormal close (which
schedules a reconnect timer with 1 s jitter), manual disconnect, then the
pending timer falls due. -/
def strayTrace : List BWSv2.Act :=
  [BWSv2.Act.callConnect 5000 true,
   BWSv2.Act.evClose 1006 5100 1000,
   BWSv2.Act.callDisconnect,
   BWSv2.Act.fire 0 9100 0 true]

/-- First circuit-breaker trip: a connection attempt followed by three
consecutive errors (the third, at t = 5300, activates the breaker). -/
def trip1Acts : List BWSv2.Act :=
  [BWSv2.Act.callConnect 5000 true, BWSv2.Act.evError 5100,
   BWSv2.Act.evError 5200, BWSv2.Act.evError 5300]

def sysTrip1 : BWSv2.Sys := BWSv2.runSys BWSv2.initSys trip1Acts

/-- Second trip: a connect once the first cooldown has elapsed, then three
more consecutive errors (the third, at t = 20600, re-activates the
breaker). -/
def trip2Acts : List BWSv2.Act :=
  [BWSv2.Act.callConnect 20300 true, BWSv2.Act.evError 20400,
   BWSv2.Act.evError 20500, BWSv2.Act.evError 20600]

def sysTrip2 : BWSv2.Sys := BWSv2.runSys sysTrip1 trip2Acts

/-- A hook state with live data for one subscription. -/
def sampleHookState : HookState :=
  { candleData := [⟨1000, 1, 2, 1, 2, 10⟩], analysis := some ⟨"BULLISH"⟩,
    indicatorArrays := some ⟨[30, 40]⟩, isLoading := false, error := none,
    currentTimeframe := "1d", currentSymbol := "BTCUSDT", isConnected := true,
    connectionState := "Connected", currentPrice := some 50000,
    priceChange := 150, priceChangePercent := 1, tickerData := some ⟨"50000", "150", "1"⟩,
    isChangingTimeframe := false, isChangingSymbol := false }

/-! ## Theorems -/

/-- The zero sentinel string parses to zero. -/
theorem jsParseFloat_zeroStr : jsParseFloat "0.00" = some 0 := by
  have h : parseFloatScaled "0.00" = some (0, 2) := by decide
  simp [jsParseFloat, h]

/-- C1: a ticker update whose change fields `p` and `P` both parse to zero
leaves held `priceChange` / `priceChangePercent` unchanged (the zero
no-change sentinel never overwrites a held nonzero change value), while the
current price is still updated from the message's `c` field. -/
theorem tickerUpdate_zero_sentinel_preserved (st : PriceState)
    (d : WebSocketTickerData) (x : ℚ) (hx : x ≠ 0)
    (hheld : st.priceChange = some x)
    (hp : jsParseFloat d.p = some 0) (hP : jsParseFloat d.P = some 0) :
    (stableHandleTickerUpdate st d).priceChange = st.priceChange ∧
    (stableHandleTickerUpdate st d).priceChangePercent = st.priceChangePercent ∧
    (stableHandleTickerUpdate st d).currentPrice = jsParseFloat d.c := by
  simp [stableHandleTickerUpdate, hp, hP]

/-- Witness for C1: held change `150.25` / `1.42` survives a `"0.00"`
sentinel message. -/
theorem tickerUpdate_zero_sentinel_preserved_witness :
    (stableHandleTickerUpdate ⟨some 50000, some (601/4), some (71/50)⟩
      ⟨"24hrTicker", 1, "BTCUSDT", "50100.5", "0", "0", "0", "0.00", "0.00"⟩).priceChange
        = some (601/4) ∧
    (stableHandleTickerUpdate ⟨some 50000, some (601/4), some (71/50)⟩
      ⟨"24hrTicker", 1, "BTCUSDT", "50100.5", "0", "0", "0", "0.00", "0.00"⟩).priceChangePercent
        = some (71/50) := by
  have h := tickerUpdate_zero_sentinel_preserved
    ⟨some 50000, some (601/4), some (71/50)⟩
    ⟨"24hrTicker", 1, "BTCUSDT", "50100.5", "0", "0", "0", "0.00", "0.00"⟩
    (601/4) (by norm_num) rfl jsParseFloat_zeroStr jsParseFloat_zeroStr
  exact ⟨h.1, h.2.1⟩

/-- C8: every message parsed as a kline event with a (truthy) close price
makes the client invoke the ticker callback exactly once, with a
synthesized ticker whose change fields `p` and `P` are both the literal
string `"0.00"` — the zero no-change sentinel originates inside the
client. -/
theorem klineMessage_synthesizes_zero_change_ticker (d : WsIncoming)
    (k : KlinePayload) (he : d.e = "kline") (hk : d.k = some k)
    (hc : k.c ≠ "") :
    onMessageEmits d =
      [Emitted.kline d,
       Emitted.ticker
         ⟨"24hrTicker", d.E, d.s, k.c, k.o, k.h, k.l, "0.00", "0.00"⟩] := by
  simp [onMessageEmits, he, hk, hc]

/-- Witness for C8 on a concrete kline message. -/
theorem klineMessage_synthesizes_zero_change_ticker_witness :
    onMessageEmits
      ⟨"kline", 999, "BTCUSDT",
        some ⟨100, 200, "BTCUSDT", "1d", 1, 2, "50000", "50100.5", "50200",
              "49900", "12.5", 10, false, "1", "2", "3"⟩⟩ =
      [Emitted.kline
        ⟨"kline", 999, "BTCUSDT",
          some ⟨100, 200, "BTCUSDT", "1d", 1, 2, "50000", "50100.5", "50200",
                "49900", "12.5", 10, false, "1", "2", "3"⟩⟩,
       Emitted.ticker
        ⟨"24hrTicker", 999, "BTCUSDT", "50100.5", "50000", "50200", "49900",
          "0.00", "0.00"⟩] :=
  klineMessage_synthesizes_zero_change_ticker _ _ rfl rfl (by decide)

/-- C2 counterexample: with the probabilistic cleanup pass running
(`doCleanup = true`), a prior (stale) entry exists at call time, the fetch
fails, and yet the failure propagates — contradicting the claim that with a
prior entry the stale value is returned and the error is never
propagated. -/
theorem getCachedData_cleanup_drops_stale_entry :
    (some (⟨42, 0, 5⟩ : CacheEntry Nat)).isSome = true ∧
    getCachedData true (some (⟨42, 0, 5⟩ : CacheEntry Nat)) 10
      (Except.error "boom") 5 = (Except.error "boom", none, true) :=
  ⟨rfl, rfl⟩

/-- C2 (amended): provided the cleanup pass at the start of the call does
not delete the key's entry, `getCachedData` returns a fresh cached value
without invoking the fetch; on an absent or expired entry it invokes the
fetch, and on fetch failure it returns the prior stale entry without
propagating, propagating the failure exactly when no prior entry exists. -/
theorem getCachedData_spec {T E : Type} (doCleanup : Bool)
    (entry : Option (CacheEntry T)) (now : Nat) (fr : Except E T) (ttl : Nat)
    (hkeep : (if doCleanup then cleanupCache entry now else entry) = entry) :
    (∀ e, entry = some e → entryFresh e now = true →
      getCachedData doCleanup entry now fr ttl = (Except.ok e.data, some e, false)) ∧
    (∀ e, entry = some e → entryFresh e now = false →
      (getCachedData doCleanup entry now fr ttl).2.2 = true ∧
      (∀ v, fr = Except.ok v →
        getCachedData doCleanup entry now fr ttl
          = (Except.ok v, some ⟨v, now, ttl⟩, true)) ∧
      (∀ err, fr = Except.error err →
        getCachedData doCleanup entry now fr ttl
          = (Except.ok e.data, some e, true))) ∧
    (entry = none →
      (getCachedData doCleanup entry now fr ttl).2.2 = true ∧
      (∀ v, fr = Except.ok v →
        getCachedData doCleanup entry now fr ttl
          = (Except.ok v, some ⟨v, now, ttl⟩, true)) ∧
      (∀ err, fr = Except.error err →
        getCachedData doCleanup entry now fr ttl
          = (Except.error err, none, true))) := by
  refine ⟨?_, ?_, ?_⟩
  · intro e he hf
    subst he
    simp [getCachedData, hkeep, hf]
  · intro e he hf
    subst he
    refine ⟨?_, ?_, ?_⟩
    · cases fr <;> simp [getCachedData, hkeep, hf]
    · intro v hv; subst hv; simp [getCachedData, hkeep, hf]
    · intro err herr; subst herr; simp [getCachedData, hkeep, hf]
  · intro he
    subst he
    refine ⟨?_, ?_, ?_⟩
    · cases fr <;> simp [getCachedData, hkeep]
    · intro v hv; subst hv; simp [getCachedData, hkeep]
    · intro err herr; subst herr; simp [getCachedData, hkeep]

/-- Witness for C2 (amended): without cleanup, a stale entry plus failing
fetch yields the stale value, not the error. -/
theorem getCachedData_spec_witness :
    getCachedData false (some (⟨7, 0, 5⟩ : CacheEntry Nat)) 10
      (Except.error "boom") 5 = (Except.ok 7, some ⟨7, 0, 5⟩, true) := by
  have h := getCachedData_spec false (some (⟨7, 0, 5⟩ : CacheEntry Nat)) 10
    (Except.error "boom") 5 rfl
  exact (h.2.1 ⟨7, 0, 5⟩ rfl rfl).2.2 "boom" rfl

/-- C10: provider selection is a pure function of the `AI_PROVIDER`
environment value and the availability map: a valid available preference
wins; otherwise the first available provider in the fixed priority order
groq, ollama, huggingface, claude, openai is chosen, defaulting to groq
when none is available. -/
theorem provider_selection_spec (env : Option String)
    (avail : AIProviderType → Bool) :
    (∀ s t, env = some s → parseProviderType s = some t → avail t = true →
      getPreferredProvider env avail = t) ∧
    ((∀ s t, env = some s → parseProviderType s = some t → avail t = false) →
      getPreferredProvider env avail = getDefaultProvider avail) ∧
    (∀ t, priorityOrder.find? avail = some t → getDefaultProvider avail = t) ∧
    ((∀ t, avail t = false) → getDefaultProvider avail = AIProviderType.groq) := by
  refine ⟨?_, ?_, ?_, ?_⟩
  · intro s t hs hp ha
    subst hs
    simp [getPreferredProvider, hp, ha]
  · intro hall
    cases env with
    | none => rfl
    | some s =>
      cases hpt : parseProviderType s with
      | none => simp [getPreferredProvider, hpt]
      | some t =>
        have hav := hall s t rfl hpt
        simp [getPreferredProvider, hpt, hav]
  · intro t ht
    simp [getDefaultProvider, ht]
  · intro hall
    have h1 : priorityOrder.find? avail = none := by
      simp [priorityOrder, List.find?, hall]
    have h2 : allProvidersOrder.find? avail = none := by
      simp [allProvidersOrder, List.find?, hall]
    simp [getDefaultProvider, h1, h2]

/-- Witness for C10: an available env-preferred provider wins; with nothing
available the default is groq. -/
theorem provider_selection_spec_witness :
    getPreferredProvider (some "ollama") (fun t => t == AIProviderType.ollama)
      = AIProviderType.ollama ∧
    getDefaultProvider (fun _ => false) = AIProviderType.groq := by
  constructor
  · exact (provider_selection_spec (some "ollama")
      (fun t => t == AIProviderType.ollama)).1
      "ollama" AIProviderType.ollama rfl (by decide) (by decide)
  · exact (provider_selection_spec none (fun _ => false)).2.2.2 (fun _ => rfl)

/-- C5: in both revisions, `handleReconnect` schedules a reconnect exactly
when the attempt counter is below `maxAttempts` and the circuit breaker
(where it exists) is inactive; the scheduled delay is
`min(baseDelay * 2^(n-1), maxDelay) + jitter` for the incremented counter
`n`; once the counter has reached `maxAttempts` it reports the error and
schedules nothing. -/
theorem handleReconnect_schedule_spec (s2 : BWSv2.St) (s1 : BWSv1.St)
    (now j2 j1 : Nat) (hj2 : j2 < 2000) (hj1 : j1 < 1000) :
    ((BWSv2.handleReconnect s2 now j2).2.1 ≠ [] ↔
      s2.reconnectAttempts < BWSv2.maxReconnectAttempts ∧
        s2.isCircuitBreakerActive = false) ∧
    (s2.reconnectAttempts < BWSv2.maxReconnectAttempts →
      s2.isCircuitBreakerActive = false →
      (BWSv2.handleReconnect s2 now j2).1.reconnectAttempts
          = s2.reconnectAttempts + 1 ∧
      (BWSv2.handleReconnect s2 now j2).2.1 =
        [⟨BWSv2.TimerKind.reconnectDelay,
          now + min (3000 * 2 ^ s2.reconnectAttempts) 60000 + j2⟩] ∧
      (BWSv2.handleReconnect s2 now j2).2.2 = []) ∧
    (s2.isCircuitBreakerActive = false →
      BWSv2.maxReconnectAttempts ≤ s2.reconnectAttempts →
      (BWSv2.handleReconnect s2 now j2).2.1 = [] ∧
      (BWSv2.handleReconnect s2 now j2).2.2
        = [BWSv2.Ev.errorCb "Max reconnection attempts reached"]) ∧
    ((BWSv1.handleReconnect s1 now j1).2.1 ≠ [] ↔
      s1.reconnectAttempts < BWSv1.maxReconnectAttempts) ∧
    (s1.reconnectAttempts < BWSv1.maxReconnectAttempts →
      (BWSv1.handleReconnect s1 now j1).1.reconnectAttempts
          = s1.reconnectAttempts + 1 ∧
      (BWSv1.handleReconnect s1 now j1).2.1 =
        [⟨BWSv2.TimerKind.reconnectDelay,
          now + min (1000 * 2 ^ s1.reconnectAttempts) 30000 + j1⟩] ∧
      (BWSv1.handleReconnect s1 now j1).2.2 = []) ∧
    (BWSv1.maxReconnectAttempts ≤ s1.reconnectAttempts →
      (BWSv1.handleReconnect s1 now j1).2.1 = [] ∧
      (BWSv1.handleReconnect s1 now j1).2.2
        = [BWSv2.Ev.errorCb "Max reconnection attempts reached"]) := by
  refine ⟨?_, ?_, ?_, ?_, ?_, ?_⟩
  · by_cases hb : s2.isCircuitBreakerActive <;>
      by_cases ha : s2.reconnectAttempts < BWSv2.maxReconnectAttempts <;>
        simp [BWSv2.handleReconnect, hb, ha]
  · intro ha hb
    simp only [BWSv2.handleReconnect, hb, Bool.false_eq_true, if_false, ha, if_true]
    split <;> simp
  · intro hb ha
    have ha' : ¬s2.reconnectAttempts < BWSv2.maxReconnectAttempts := by omega
    simp [BWSv2.handleReconnect, hb, ha']
  · by_cases ha : s1.reconnectAttempts < BWSv1.maxReconnectAttempts <;>
      simp [BWSv1.handleReconnect, ha]
  · intro ha
    simp only [BWSv1.handleReconnect, ha, if_true]
    split <;> simp
  · intro ha
    have ha' : ¬s1.reconnectAttempts < BWSv1.maxReconnectAttempts := by omega
    simp [BWSv1.handleReconnect, ha']

/-- Witness for C5: from a fresh client of each revision, the first
reconnect schedules at base delay plus jitter. -/
theorem handleReconnect_schedule_spec_witness :
    (BWSv2.handleReconnect BWSv2.initSt 100 500).2.1 =
      [⟨BWSv2.TimerKind.reconnectDelay, 3600⟩] ∧
    (BWSv1.handleReconnect ⟨0, 0⟩ 100 500).2.1 =
      [⟨BWSv2.TimerKind.reconnectDelay, 1600⟩] := by
  have h := handleReconnect_schedule_spec BWSv2.initSt ⟨0, 0⟩ 100 500 500
    (by decide) (by decide)
  refine ⟨?_, ?_⟩
  · exact ((h.2.1 (by decide) rfl).2.1).trans (by decide)
  · exact ((h.2.2.2.2.1 (by decide)).2.1).trans (by decide)

/-- Well-formedness holds initially. -/
theorem orch_WF_init : Orch.WF Orch.initOSt := by
  simp [Orch.WF, Orch.initOSt]

/-- Well-formedness is preserved by every refresh event. -/
theorem orch_WF_step (s : Orch.OSt) (a : Orch.OAct) (h : Orch.WF s) :
    Orch.WF (Orch.ostep s a) := by
  obtain ⟨h1, h2, h3⟩ := h
  cases a with
  | refreshCall =>
    by_cases hr : s.isRefreshing = true
    · have e : Orch.ostep s Orch.OAct.refreshCall
          = { s with droppedRefreshes := s.droppedRefreshes + 1 } := by
        simp [Orch.ostep, Orch.callRefresh, hr]
      rw [e]
      exact ⟨h1, h2, h3⟩
    · have hp : s.phase = none := by
        rcases hph : s.phase with _ | ph
        · rfl
        · cases ph
          · exact absurd (h2 hph).1 hr
          · exact absurd (h3 hph).1 hr
      have e : Orch.ostep s Orch.OAct.refreshCall
          = { s with isRefreshing := true,
                     phase := some Orch.RefreshPhase.awaitingPriceFetch,
                     priceFetchInFlight := true,
                     priceFetchCalls := s.priceFetchCalls + 1 } := by
        simp [Orch.ostep, Orch.callRefresh, hr]
      rw [e]
      refine ⟨fun hph => ?_, fun _ => ⟨rfl, (h1 hp).2.2⟩, fun hph => ?_⟩
      · exact absurd hph (by simp)
      · exact absurd hph (by simp)
  | priceSettled ok =>
    by_cases hg : s.phase = some Orch.RefreshPhase.awaitingPriceFetch ∧
        s.priceFetchInFlight = true
    · cases ok with
      | true =>
        have e : Orch.ostep s (Orch.OAct.priceSettled true)
            = { s with priceFetchInFlight := false,
                       phase := some Orch.RefreshPhase.awaitingDataFetch,
                       dataFetchInFlight := true,
                       dataFetchCalls := s.dataFetchCalls + 1 } := by
          simp [Orch.ostep, Orch.priceFetchSettled, hg]
        rw [e]
        refine ⟨fun hph => ?_, fun hph => ?_, fun _ => ⟨(h2 hg.1).1, rfl⟩⟩
        · exact absurd hph (by simp)
        · exact absurd hph (by simp)
      | false =>
        have e : Orch.ostep s (Orch.OAct.priceSettled false)
            = { s with priceFetchInFlight := false, phase := none,
                       isRefreshing := false } := by
          simp [Orch.ostep, Orch.priceFetchSettled, hg]
        rw [e]
        refine ⟨fun _ => ⟨rfl, rfl, (h2 hg.1).2⟩, fun hph => ?_, fun hph => ?_⟩
        · exact absurd hph (by simp)
        · exact absurd hph (by simp)
    · have e : Orch.ostep s (Orch.OAct.priceSettled ok) = s := by
        simp [Orch.ostep, Orch.priceFetchSettled, hg]
      rw [e]
      exact ⟨h1, h2, h3⟩
  | dataSettled ok =>
    by_cases hg : s.phase = some Orch.RefreshPhase.awaitingDataFetch ∧
        s.dataFetchInFlight = true
    · have e : Orch.ostep s (Orch.OAct.dataSettled ok)
          = { s with dataFetchInFlight := false, phase := none,
                     isRefreshing := false } := by
        simp [Orch.ostep, Orch.dataFetchSettled, hg]
      rw [e]
      refine ⟨fun _ => ⟨rfl, (h3 hg.1).2, rfl⟩, fun hph => ?_, fun hph => ?_⟩
      · exact absurd hph (by simp)
      · exact absurd hph (by simp)
    · have e : Orch.ostep s (Orch.OAct.dataSettled ok) = s := by
        simp [Orch.ostep, Orch.dataFetchSettled, hg]
      rw [e]
      exact ⟨h1, h2, h3⟩

/-- Well-formedness is preserved by whole traces. -/
theorem orch_WF_run (acts : List Orch.OAct) (s : Orch.OSt) (h : Orch.WF s) :
    Orch.WF (Orch.orun s acts) := by
  induction acts generalizing s with
  | nil => exact h
  | cons a rest ih => exact ih _ (orch_WF_step s a h)

/-- A well-formed state has at most one fetch in flight. -/
theorem orch_WF_le_one (s : Orch.OSt) (h : Orch.WF s) :
    Orch.fetchesInFlight s ≤ 1 := by
  obtain ⟨h1, h2, h3⟩ := h
  cases hpf : s.priceFetchInFlight with
  | false => cases hdf : s.dataFetchInFlight <;>
      simp [Orch.fetchesInFlight, hpf, hdf]
  | true =>
    have hdf : s.dataFetchInFlight = false := by
      rcases hph : s.phase with _ | ph
      · exact absurd (h1 hph).2.1 (by simp [hpf])
      · cases ph
        · exact (h2 hph).2
        · exact absurd (h3 hph).2 (by simp [hpf])
    simp [Orch.fetchesInFlight, hpf, hdf]

/-- C6: a `refresh` call issued while a previous refresh is in flight is
dropped as a pure no-op (only the drop counter moves — nothing is queued
and no fetch starts), and along every event trace the underlying fetch
never has more than one invocation in flight. -/
theorem refresh_no_concurrent_self :
    (∀ s : Orch.OSt, s.isRefreshing = true →
      Orch.callRefresh s = { s with droppedRefreshes := s.droppedRefreshes + 1 }) ∧
    (∀ acts : List Orch.OAct,
      Orch.fetchesInFlight (Orch.orun Orch.initOSt acts) ≤ 1) := by
  constructor
  · intro s h
    simp [Orch.callRefresh, h]
  · intro acts
    exact orch_WF_le_one _ (orch_WF_run acts _ orch_WF_init)

/-- Witness for C6: the second of two back-to-back refresh calls only bumps
the drop counter, and a concrete overlapping trace keeps at most one fetch
in flight. -/
theorem refresh_no_concurrent_self_witness :
    Orch.callRefresh ⟨true, some Orch.RefreshPhase.awaitingPriceFetch,
        true, false, 1, 0, 0⟩ =
      ⟨true, some Orch.RefreshPhase.awaitingPriceFetch, true, false, 1, 0, 1⟩ ∧
    Orch.fetchesInFlight (Orch.orun Orch.initOSt
      [Orch.OAct.refreshCall, Orch.OAct.refreshCall,
       Orch.OAct.priceSettled true, Orch.OAct.refreshCall]) ≤ 1 := by
  constructor
  · exact (refresh_no_concurrent_self.1
      ⟨true, some Orch.RefreshPhase.awaitingPriceFetch, true, false, 1, 0, 0⟩ rfl).trans rfl
  · exact refresh_no_concurrent_self.2
      [Orch.OAct.refreshCall, Orch.OAct.refreshCall,
       Orch.OAct.priceSettled true, Orch.OAct.refreshCall]

/-- C3 (code defect): `disconnect()` clears the three stored timers, but
the reconnect-delay `setTimeout` scheduled by `handleReconnect` is never
stored and so survives `disconnect()`; when it falls due, its guard
(`not connected, breaker inactive`) passes — `disconnect()` itself reset
the breaker — and `connect()` runs, creating a second WebSocket from the
supposedly destroyed instance. -/
theorem disconnect_stray_reconnect :
    (BWSv2.runSys BWSv2.initSys (strayTrace.take 3)).st.connectionTimeoutSet = false ∧
    (BWSv2.runSys BWSv2.initSys (strayTrace.take 3)).st.pingIntervalSet = false ∧
    (BWSv2.runSys BWSv2.initSys (strayTrace.take 3)).st.dataTimeoutCheckSet = false ∧
    (BWSv2.runSys BWSv2.initSys (strayTrace.take 3)).pending
      = [⟨BWSv2.TimerKind.reconnectDelay, 9100⟩] ∧
    (BWSv2.runSys BWSv2.initSys strayTrace).events.count (BWSv2.Ev.wsCreate 0) = 2 ∧
    (BWSv2.runSys BWSv2.initSys strayTrace).st.ws
      = some BWSv2.ReadyState.connecting := by
  decide

/-- C4 counterexample: the cooldown window after a circuit-breaker trip is
exactly 15 s on the first trip *and* on the second — `connect()` is a no-op
14999 ms after the trip and creates a socket at 15000 ms, both times — so
the window does not grow with repeated trips. -/
theorem circuitBreaker_cooldown_fixed_cex :
    sysTrip1.st.isCircuitBreakerActive = true ∧
    BWSv2.stepSys sysTrip1 (BWSv2.Act.callConnect 20299 true) = sysTrip1 ∧
    (BWSv2.stepSys sysTrip1 (BWSv2.Act.callConnect 20300 true)).events
      = sysTrip1.events ++ [BWSv2.Ev.wsCreate 0] ∧
    sysTrip2.st.isCircuitBreakerActive = true ∧
    BWSv2.stepSys sysTrip2 (BWSv2.Act.callConnect 35599 true) = sysTrip2 ∧
    (BWSv2.stepSys sysTrip2 (BWSv2.Act.callConnect 35600 true)).events
      = sysTrip2.events ++ [BWSv2.Ev.wsCreate 0] := by
  decide

/-- C4 (amended): three consecutive errors trip the breaker; while it is
active, `connect()` within 15 s of the last error is a pure no-op (no
WebSocket is created); the first `connect()` at or after the fixed 15 s
cooldown resets the consecutive-error count, deactivates the breaker and
proceeds to create a socket (when the rate-limit, in-progress and
extended-backoff gates permit). The cooldown is the constant
`circuitBreakerDelay = 15000` for every trip; the grown
`min(15000 * errorCount, 120000)` value is computed only for a log line. -/
theorem circuitBreaker_gate_spec (s : BWSv2.St) (now : Nat) :
    (2 ≤ s.errorCount → ∀ tnow,
      (BWSv2.onError s tnow).1.isCircuitBreakerActive = true) ∧
    (s.isCircuitBreakerActive = true → now - s.lastErrorTime < 15000 →
      ∀ createOk, BWSv2.connect s now createOk = (s, [], [])) ∧
    (s.isCircuitBreakerActive = true → 15000 ≤ now - s.lastErrorTime →
      3000 ≤ now - s.lastConnectionTime → s.isConnecting = false →
      s.connectionAttempts < 5 →
      (BWSv2.connect s now true).1.isCircuitBreakerActive = false ∧
      (BWSv2.connect s now true).1.errorCount = 0 ∧
      (BWSv2.connect s now true).2.2 = [BWSv2.Ev.wsCreate s.currentUrlIndex]) := by
  refine ⟨?_, ?_, ?_⟩
  · intro he tnow
    have h3 : 3 ≤ s.errorCount + 1 := by omega
    simp [BWSv2.onError, h3]
  · intro hb hlt createOk
    simp only [BWSv2.connect, BWSv2.circuitBreakerDelay]
    split_ifs <;> rfl
  · intro hb h15 h3k hic hlt5
    have hc1 : ¬(now - s.lastConnectionTime < 3000) := by omega
    have hc4 : ¬(now - s.lastErrorTime < BWSv2.circuitBreakerDelay) := by
      simp only [BWSv2.circuitBreakerDelay]
      omega
    have hna : ¬(5 < s.connectionAttempts + 1) := by omega
    simp [BWSv2.connect, BWSv2.connectAfterGates, hc1, hic, hb, hc4, hna]

/-- Witness for C4 (amended): a tripped client (error count 6, trip at
t = 0) ignores `connect()` at 14 s and creates a socket at 15 s. -/
theorem circuitBreaker_gate_spec_witness :
    BWSv2.connect ⟨none, 0, false, false, 0, false, 0, false, 6, 0, true, 0, 0, 0⟩
        14000 true
      = (⟨none, 0, false, false, 0, false, 0, false, 6, 0, true, 0, 0, 0⟩, [], []) ∧
    (BWSv2.connect ⟨none, 0, false, false, 0, false, 0, false, 6, 0, true, 0, 0, 0⟩
        15000 true).2.2 = [BWSv2.Ev.wsCreate 0] := by
  constructor
  · exact (circuitBreaker_gate_spec
      ⟨none, 0, false, false, 0, false, 0, false, 6, 0, true, 0, 0, 0⟩ 14000).2.1
      rfl (by decide) true
  · exact ((circuitBreaker_gate_spec
      ⟨none, 0, false, false, 0, false, 0, false, 6, 0, true, 0, 0, 0⟩ 15000).2.2
      rfl (by decide) (by decide) rfl (by decide)).2.2

/-- C7 counterexample: an actual timeframe change keeps the previous
subscription's candle data and analysis (only loading/error flags and the
timeframe move) — dependent state is *not* reset to placeholders on an
interval change. -/
theorem changeTimeframe_retains_stale_data_cex :
    (changeTimeframeStart sampleHookState "4h").currentTimeframe = "4h" ∧
    (changeTimeframeStart sampleHookState "4h").isChangingTimeframe = true ∧
    (changeTimeframeStart sampleHookState "4h").candleData
      = sampleHookState.candleData ∧
    (changeTimeframeStart sampleHookState "4h").analysis
      = sampleHookState.analysis ∧
    sampleHookState.candleData.length = 1 := by
  refine ⟨?_, ?_, ?_, ?_, ?_⟩ <;> decide

/-- C7 (amended): a subscription change with the currently active value is
a no-op; a same-kind call while one is in flight is dropped; an actual
*symbol* change resets the dependent state (candles, analysis, indicators,
current price, price change, ticker) to explicit placeholders in its
synchronous prelude, before any fetch; an actual *timeframe* change only
sets the loading flag and new timeframe, retaining prior data until the
forced re-fetch lands. -/
theorem changeSubscription_spec (s : HookState) (sym tf : String) :
    (sym = s.currentSymbol → changeSymbolStart s sym = s) ∧
    (tf = s.currentTimeframe → changeTimeframeStart s tf = s) ∧
    (s.isChangingSymbol = true → changeSymbolStart s sym = s) ∧
    (s.isChangingTimeframe = true → changeTimeframeStart s tf = s) ∧
    (sym ≠ s.currentSymbol → s.isChangingSymbol = false →
      changeSymbolStart s sym =
        { s with isChangingSymbol := true, currentSymbol := sym,
                 isLoading := true, error := none, isConnected := false,
                 connectionState := "Connecting", candleData := [],
                 analysis := none, indicatorArrays := none,
                 currentPrice := none, priceChange := 0,
                 priceChangePercent := 0, tickerData := none }) ∧
    (tf ≠ s.currentTimeframe → s.isChangingTimeframe = false →
      changeTimeframeStart s tf =
        { s with isChangingTimeframe := true, currentTimeframe := tf,
                 isLoading := true, error := none }) := by
  refine ⟨?_, ?_, ?_, ?_, ?_, ?_⟩
  · intro h; simp [changeSymbolStart, h]
  · intro h; simp [changeTimeframeStart, h]
  · intro h
    by_cases hsy : sym = s.currentSymbol <;> simp [changeSymbolStart, hsy, h]
  · intro h
    by_cases htf : tf = s.currentTimeframe <;> simp [changeTimeframeStart, htf, h]
  · intro hne h; simp [changeSymbolStart, hne, h]
  · intro hne h; simp [changeTimeframeStart, hne, h]

/-- Witness for C7 (amended): same-symbol call is the identity; a real
symbol change clears candles and price. -/
theorem changeSubscription_spec_witness :
    changeSymbolStart sampleHookState "BTCUSDT" = sampleHookState ∧
    (changeSymbolStart sampleHookState "ETHUSDT").candleData = [] ∧
    (changeSymbolStart sampleHookState "ETHUSDT").currentPrice = none := by
  have h1 := changeSubscription_spec sampleHookState "BTCUSDT" "1d"
  have h2 := changeSubscription_spec sampleHookState "ETHUSDT" "4h"
  refine ⟨h1.1 rfl, ?_, ?_⟩
  · rw [h2.2.2.2.2.1 (by decide) rfl]
  · rw [h2.2.2.2.2.1 (by decide) rfl]

/-- Dedup only drops elements: members of the output come from the input. -/
theorem mem_of_mem_dedupKeepLast {x : Observation} :
    ∀ {l : List Observation}, x ∈ dedupKeepLast l → x ∈ l := by
  intro l
  induction l with
  | nil => simp [dedupKeepLast]
  | cons o rest ih =>
    simp only [dedupKeepLast]
    split_ifs with h
    · intro hx
      exact List.mem_cons_of_mem _ (ih hx)
    · intro hx
      rcases List.mem_cons.mp hx with rfl | hx'
      · exact List.mem_cons_self _ _
      · exact List.mem_cons_of_mem _ (ih hx')

/-- After dedup, no two elements share a `time`. -/
theorem dedupKeepLast_times_nodup :
    ∀ l : List Observation, ((dedupKeepLast l).map (fun o => o.time)).Nodup := by
  intro l
  induction l with
  | nil => simp [dedupKeepLast]
  | cons o rest ih =>
    simp only [dedupKeepLast]
    split_ifs with h
    · exact ih
    · simp only [List.map_cons, List.nodup_cons]
      refine ⟨?_, ih⟩
      intro hmem
      rcases List.mem_map.mp hmem with ⟨y, hy, hyt⟩
      exact h (List.any_eq_true.mpr
        ⟨y, mem_of_mem_dedupKeepLast hy, by simp [hyt]⟩)

/-- Dedup keeps exactly the last arrival for each `time` value. -/
theorem mem_dedupKeepLast_iff (x : Observation) :
    ∀ l : List Observation,
      x ∈ dedupKeepLast l ↔
        (l.filter (fun y => y.time == x.time)).getLast? = some x := by
  intro l
  induction l with
  | nil => simp [dedupKeepLast]
  | cons o rest ih =>
    by_cases h : rest.any (fun y => y.time == o.time) = true
    · simp only [dedupKeepLast, if_pos h]
      by_cases ht : o.time = x.time
      · have hfo : (o :: rest).filter (fun y => y.time == x.time)
            = o :: rest.filter (fun y => y.time == x.time) := by
          simp [List.filter_cons, ht]
        obtain ⟨y, hy, hyt⟩ := List.any_eq_true.mp h
        have hyx : (y.time == x.time) = true := by
          simp only [beq_iff_eq] at hyt ⊢
          omega
        have hne : rest.filter (fun y => y.time == x.time) ≠ [] := by
          intro hemp
          have hmem : y ∈ rest.filter (fun y => y.time == x.time) :=
            List.mem_filter.mpr ⟨hy, hyx⟩
          simp [hemp] at hmem
        obtain ⟨c, l', hl⟩ := List.exists_cons_of_ne_nil hne
        rw [hfo, hl, List.getLast?_cons_cons, ← hl]
        exact ih
      · have hfo : (o :: rest).filter (fun y => y.time == x.time)
            = rest.filter (fun y => y.time == x.time) := by
          simp [List.filter_cons, ht]
        rw [hfo]
        exact ih
    · simp only [dedupKeepLast, if_neg h]
      by_cases ht : o.time = x.time
      · have hfr : rest.filter (fun y => y.time == x.time) = [] := by
          rw [List.filter_eq_nil_iff]
          intro y hy hp
          exact h (List.any_eq_true.mpr
            ⟨y, hy, by simp only [beq_iff_eq] at hp ⊢; omega⟩)
        have hfo : (o :: rest).filter (fun y => y.time == x.time) = [o] := by
          simp [List.filter_cons, ht, hfr]
        rw [hfo]
        constructor
        · intro hx
          rcases List.mem_cons.mp hx with rfl | hx'
          · rfl
          · exfalso
            exact h (List.any_eq_true.mpr
              ⟨x, mem_of_mem_dedupKeepLast hx', by simp [ht.symm]⟩)
        · intro hs
          have hox : o = x := by
            simpa using hs
          subst hox
          exact List.mem_cons_self _ _
      · have hfo : (o :: rest).filter (fun y => y.time == x.time)
            = rest.filter (fun y => y.time == x.time) := by
          simp [List.filter_cons, ht]
        rw [hfo]
        constructor
        · intro hx
          rcases List.mem_cons.mp hx with rfl | hx'
          · exact absurd rfl ht
          · exact ih.mp hx'
        · intro hs
          exact List.mem_cons_of_mem _ (ih.mpr hs)

/-- C9: the dedup/sort stage yields a sequence that is non-decreasing in
`time`, has no two entries with the same `time`, and contains, for each
`time` present in the input, exactly the most recently received values for
it (last-write-wins). -/
theorem dedupSort_spec (l : List Observation) :
    (dedupSort l).Pairwise (fun a b => a.time ≤ b.time) ∧
    ((dedupSort l).map (fun o => o.time)).Nodup ∧
    ∀ x, (x ∈ dedupSort l ↔
      (l.filter (fun y => y.time == x.time)).getLast? = some x) := by
  refine ⟨?_, ?_, ?_⟩
  · have h := @List.sorted_mergeSort Observation
      (fun a b => decide (a.time ≤ b.time))
      (fun a b c hab hbc => by
        simp only [decide_eq_true_eq] at hab hbc ⊢
        omega)
      (fun a b => by
        simpa using Nat.le_total a.time b.time)
      (dedupKeepLast l)
    exact h.imp (fun hab => by simpa using hab)
  · have hperm := List.mergeSort_perm (dedupKeepLast l)
      (fun a b => a.time ≤ b.time)
    exact ((hperm.map (fun o => o.time)).nodup_iff).mpr
      (dedupKeepLast_times_nodup l)
  · intro x
    unfold dedupSort
    rw [List.mem_mergeSort]
    exact mem_dedupKeepLast_iff x l
